import Mathlib

/-!
Verification of the HubSpot MCP server core (src/index.ts): the response
formatter, the API client, the error-handling wrappers and the registered
tool handlers, shallowly embedded in Lean. JavaScript values that can flow
through these functions are modelled by the inductive type JsValue, the
outcome of a fetch by FetchResult, and thrown exceptions by the error side
of Except carrying the message string.
-/

set_option maxHeartbeats 1000000

namespace HubSpotMcp

/-- A JSON-compatible JavaScript value, including the distinguished
undefined value (absent optional arguments and skipped object keys). -/
inductive JsValue where
  | vNull
  | vUndefined
  | vBool (b : Bool)
  | vNum (n : Int)
  | vStr (s : String)
  | vArr (elems : List JsValue)
  | vObj (fields : List (String × JsValue))
deriving Repr

/-- True exactly on the undefined value. -/
def JsValue.isUndef : JsValue → Bool
  | .vUndefined => true
  | _ => false

/-- True exactly on the null value. -/
def JsValue.isNullJs : JsValue → Bool
  | .vNull => true
  | _ => false

/-- One uppercase hexadecimal digit for a value below 16. -/
def hexDigit (n : Nat) : String :=
  String.singleton (Char.ofNat (if n < 10 then 48 + n else 55 + n))

/-- Four-digit uppercase hexadecimal form, for JSON \u escapes. -/
def hex4 (n : Nat) : String :=
  hexDigit (n / 4096 % 16) ++ hexDigit (n / 256 % 16) ++ hexDigit (n / 16 % 16) ++ hexDigit (n % 16)

/-- JSON string escaping of one character, as JSON.stringify performs it. -/
def jsonEscapeChar (c : Char) : String :=
  if c = '"' then "\\\""
  else if c = '\\' then "\\\\"
  else if c = '\n' then "\\n"
  else if c = '\r' then "\\r"
  else if c = '\t' then "\\t"
  else if c.toNat = 8 then "\\b"
  else if c.toNat = 12 then "\\f"
  else if c.toNat < 32 then "\\u" ++ hex4 c.toNat
  else String.singleton c

/-- A JSON string literal for s, double-quoted and escaped. -/
def jsonQuote (s : String) : String :=
  "\"" ++ String.join (s.data.map jsonEscapeChar) ++ "\""

mutual

/-- JSON.stringify on a JsValue. Object fields whose value is undefined are
omitted; an undefined array element serializes as null, which is also the
value this function gives to a top-level undefined (the source only ever
stringifies non-null objects at top level). -/
def jsonStringify : JsValue → String
  | .vNull => "null"
  | .vUndefined => "null"
  | .vBool b => cond b "true" "false"
  | .vNum n => toString n
  | .vStr s => jsonQuote s
  | .vArr xs => "[" ++ String.intercalate "," (stringifyElems xs) ++ "]"
  | .vObj fs => "\x7b" ++ String.intercalate "," (stringifyFields fs) ++ "\x7d"

/-- The serialized forms of the elements of a JSON array. -/
def stringifyElems : List JsValue → List String
  | [] => []
  | v :: vs => jsonStringify v :: stringifyElems vs

/-- The serialized key:value fragments of a JSON object, skipping fields
whose value is undefined. -/
def stringifyFields : List (String × JsValue) → List String
  | [] => []
  | (k, v) :: fs =>
    match v with
    | .vUndefined => stringifyFields fs
    | w => (jsonQuote k ++ ":" ++ jsonStringify w) :: stringifyFields fs

end

mutual

/-- The JavaScript toString form of a value (also the String coercion for
the primitives): numbers and booleans print themselves, arrays join their
element strings with commas turning null and undefined elements into empty
strings, and plain objects print as the object Object tag. -/
def jsToStr : JsValue → String
  | .vNull => "null"
  | .vUndefined => "undefined"
  | .vBool b => cond b "true" "false"
  | .vNum n => toString n
  | .vStr s => s
  | .vObj _ => "[object Object]"
  | .vArr xs => String.intercalate "," (elemStrs xs)

/-- The strings an array join produces for its elements: empty for null and
undefined, the toString form otherwise. -/
def elemStrs : List JsValue → List String
  | [] => []
  | .vNull :: vs => "" :: elemStrs vs
  | .vUndefined :: vs => "" :: elemStrs vs
  | v :: vs => jsToStr v :: elemStrs vs

end

/-- The UTF-8 bytes of one character, as natural numbers. -/
def utf8Bytes (c : Char) : List Nat :=
  let n := c.toNat
  if n < 128 then [n]
  else if n < 2048 then [192 + n / 64, 128 + n % 64]
  else if n < 65536 then [224 + n / 4096, 128 + n / 64 % 64, 128 + n % 64]
  else [240 + n / 262144, 128 + n / 4096 % 64, 128 + n / 64 % 64, 128 + n % 64]

/-- Whether a byte stays literal under application/x-www-form-urlencoded
serialization: ASCII alphanumerics and the characters * - . _ do. -/
def isSafeByte (n : Nat) : Bool :=
  (48 ≤ n && n ≤ 57) || (65 ≤ n && n ≤ 90) || (97 ≤ n && n ≤ 122) ||
    n = 42 || n = 45 || n = 46 || n = 95

/-- form-urlencoded serialization of one byte: space becomes a plus sign,
safe bytes stay literal, every other byte is percent-escaped. -/
def encodeByte (n : Nat) : String :=
  if n = 32 then "+"
  else if isSafeByte n then String.singleton (Char.ofNat n)
  else "%" ++ hexDigit (n / 16) ++ hexDigit (n % 16)

/-- The URLSearchParams serialization of one string (key or value). -/
def formEncode (s : String) : String :=
  String.join (s.data.map fun c => String.join ((utf8Bytes c).map encodeByte))

/-- One element of the content array of a tool result. -/
structure ContentItem where
  type : String
  text : String
deriving Repr, DecidableEq

/-- The uniform result shape every tool returns. -/
structure Envelope where
  content : List ContentItem
deriving Repr, DecidableEq

/-- formatResponse from src/index.ts: a string is used verbatim, null and
undefined become the fixed no-data text, objects and arrays are JSON
stringified, and every remaining value is string-coerced; the text is then
wrapped in a single text content element. -/
def formatResponse (data : JsValue) : Envelope :=
  let text :=
    match data with
    | .vStr s => s
    | .vNull => "No data returned"
    | .vUndefined => "No data returned"
    | .vObj fs => jsonStringify (.vObj fs)
    | .vArr xs => jsonStringify (.vArr xs)
    | d => jsToStr d
  ⟨[⟨"text", text⟩]⟩

/-- An outbound HTTP request exactly as makeApiRequest assembles it. -/
structure HttpRequest where
  url : String
  method : String
  headers : List (String × String)
  body : Option String
deriving Repr, DecidableEq

/-- A response from fetch: the numeric status and the outcome of parsing
the body as JSON (the error side is the message a parse failure throws). -/
structure HttpResponse where
  status : Nat
  jsonBody : Except String JsValue

/-- What fetch does with a request: either yield a response or throw a
transport exception with the given message. -/
inductive FetchResult where
  | fsuccess (resp : HttpResponse)
  | fthrow (msg : String)

/-- The outcome of one API-client call: the returned value or the thrown
exception message, together with the HTTP requests actually issued. -/
structure ApiOutcome where
  result : Except String JsValue
  requests : List HttpRequest

/-- The query pairs URLSearchParams accumulates from the params record:
entries with an undefined value are skipped, every other value has its
toString form taken, and a null value throws since null has no toString
method. -/
def buildQueryPairs : List (String × JsValue) → Except String (List (String × String))
  | [] => .ok []
  | (k, v) :: rest =>
    match v with
    | .vUndefined => buildQueryPairs rest
    | .vNull => .error "Cannot read properties of null (reading toString)"
    | w =>
      match buildQueryPairs rest with
      | .ok ps => .ok ((k, jsToStr w) :: ps)
      | .error e => .error e

/-- The URLSearchParams toString serialization of accumulated pairs. -/
def queryToString (pairs : List (String × String)) : String :=
  String.intercalate "&" (pairs.map fun kv => formEncode kv.1 ++ "=" ++ formEncode kv.2)

/-- makeApiRequest from src/index.ts. It throws on an empty access token
before anything else, builds the query string from params, issues one fetch
with the Accept and Authorization headers (plus Content-Type and a JSON
body exactly when a body is passed), and maps the response: a status
outside 200..299 and a 204 status both return descriptive strings, any
other success status returns the parsed JSON body. Thrown exceptions are
the error side; the issued requests are recorded alongside. -/
def makeApiRequest (apiKey endpoint : String) (params : List (String × JsValue))
    (method : String) (body : Option JsValue)
    (fetchFn : HttpRequest → FetchResult) : ApiOutcome :=
  if apiKey = "" then
    ⟨.error "HUBSPOT_ACCESS_TOKEN environment variable is not set", []⟩
  else
    match buildQueryPairs params with
    | .error e => ⟨.error e, []⟩
    | .ok pairs =>
      let qs := queryToString pairs
      let url := "https://api.hubapi.com" ++ endpoint ++ (if qs = "" then "" else "?" ++ qs)
      let headers := [("Accept", "application/json"), ("Authorization", "Bearer " ++ apiKey)]
        ++ (match body with
            | some _ => [("Content-Type", "application/json")]
            | none => [])
      let req : HttpRequest := ⟨url, method, headers, body.map jsonStringify⟩
      match fetchFn req with
      | .fthrow msg => ⟨.error msg, [req]⟩
      | .fsuccess resp =>
        if resp.status < 200 ∨ 299 < resp.status then
          ⟨.ok (.vStr ("Error fetching data from HubSpot: Status " ++ toString resp.status)), [req]⟩
        else if resp.status = 204 then
          ⟨.ok (.vStr "No data returned: Status 204"), [req]⟩
        else
          match resp.jsonBody with
          | .ok v => ⟨.ok v, [req]⟩
          | .error m => ⟨.error m, [req]⟩

/-- The envelope a tool handler produced together with the HTTP requests
issued on the way. -/
structure ToolOutcome where
  envelope : Envelope
  requests : List HttpRequest

/-- makeApiRequestWithErrorHandling from src/index.ts: the API-client
result is formatted, and a thrown exception is caught and formatted as the
fixed prefix followed by its message. This layer returns an envelope on
every path. -/
def makeApiRequestWithErrorHandling (apiKey endpoint : String)
    (params : List (String × JsValue)) (method : String) (body : Option JsValue)
    (fetchFn : HttpRequest → FetchResult) : ToolOutcome :=
  let o := makeApiRequest apiKey endpoint params method body fetchFn
  match o.result with
  | .ok data => ⟨formatResponse data, o.requests⟩
  | .error msg => ⟨formatResponse (.vStr ("Error performing request: " ++ msg)), o.requests⟩

/-- handleEndpoint from src/index.ts: the inner call is returned unchanged
when it does not throw, and a thrown exception message is formatted. -/
def handleEndpoint (apiCall : Except String Envelope) : Envelope :=
  match apiCall with
  | .ok v => v
  | .error msg => formatResponse (.vStr msg)

/-- The add tool handler: the sum of the two numbers, string-coerced, in a
single text content element. -/
def add_invoke (a b : Int) : Envelope :=
  ⟨[⟨"text", toString (a + b)⟩]⟩

/-- The JSON body the crm_create_company handler posts: the validated
properties object and the associations argument, undefined when absent. -/
def createCompanyBody (properties : List (String × JsValue))
    (associations : Option JsValue) : JsValue :=
  .vObj [("properties", .vObj properties),
         ("associations", associations.getD .vUndefined)]

/-- The crm_create_company tool handler: a POST to the companies collection
endpoint with the properties and associations as JSON body, wrapped in
handleEndpoint. -/
def crm_create_company_invoke (token : String) (properties : List (String × JsValue))
    (associations : Option JsValue) (fetchFn : HttpRequest → FetchResult) : ToolOutcome :=
  let inner := makeApiRequestWithErrorHandling token "/crm/v3/objects/companies" [] "POST"
    (some (createCompanyBody properties associations)) fetchFn
  ⟨handleEndpoint (.ok inner.envelope), inner.requests⟩

/-- The crm_update_company tool handler: a PATCH to the single-company
endpoint with the properties as JSON body, wrapped in handleEndpoint. -/
def crm_update_company_invoke (token companyId : String)
    (properties : List (String × JsValue)) (fetchFn : HttpRequest → FetchResult) : ToolOutcome :=
  let inner := makeApiRequestWithErrorHandling token
    ("/crm/v3/objects/companies/" ++ companyId) [] "PATCH"
    (some (.vObj [("properties", .vObj properties)])) fetchFn
  ⟨handleEndpoint (.ok inner.envelope), inner.requests⟩

/-- The optional-chained join of an optional string array: undefined when
the argument is absent, the comma-joined string otherwise. -/
def optJoin : Option (List String) → JsValue
  | none => .vUndefined
  | some xs => .vStr (String.intercalate "," xs)

/-- The crm_get_company tool handler: a GET to the single-company endpoint
with the properties and associations arrays comma-joined into query
values, wrapped in handleEndpoint. -/
def crm_get_company_invoke (token companyId : String)
    (properties associations : Option (List String))
    (fetchFn : HttpRequest → FetchResult) : ToolOutcome :=
  let inner := makeApiRequestWithErrorHandling token
    ("/crm/v3/objects/companies/" ++ companyId)
    [("properties", optJoin properties), ("associations", optJoin associations)]
    "GET" none fetchFn
  ⟨handleEndpoint (.ok inner.envelope), inner.requests⟩

/-- One search filter as the crm_search_companies schema declares it. -/
structure SearchFilter where
  propertyName : String
  operator : String
  value : JsValue

/-- One ANDed group of search filters. -/
structure SearchFilterGroup where
  filters : List SearchFilter

/-- One sort directive of a company search. -/
structure SearchSort where
  propertyName : String
  direction : String

/-- The whole argument set of crm_search_companies. -/
structure SearchArgs where
  filterGroups : List SearchFilterGroup
  properties : Option (List String)
  limit : Option Int
  after : Option String
  sorts : Option (List SearchSort)

/-- The fixed operator enumeration of the search filter schema. -/
def validOperators : List String :=
  ["EQ", "NEQ", "LT", "LTE", "GT", "GTE", "BETWEEN", "IN", "NOT_IN",
   "HAS_PROPERTY", "NOT_HAS_PROPERTY", "CONTAINS_TOKEN", "NOT_CONTAINS_TOKEN"]

/-- The schema constraints the crm_search_companies declaration imposes:
every filter operator lies in the fixed enumeration, the limit when present
lies in 1..100, and every sort direction is ascending or descending. -/
def validSearchArgs (a : SearchArgs) : Bool :=
  a.filterGroups.all (fun g => g.filters.all fun f => validOperators.contains f.operator)
    && (match a.limit with
        | none => true
        | some l => 1 ≤ l && l ≤ 100)
    && (match a.sorts with
        | none => true
        | some ss => ss.all fun s => s.direction = "ASCENDING" || s.direction = "DESCENDING")

/-- An optional value as the JS object field it becomes: undefined when
absent. -/
def optField (o : Option JsValue) : JsValue :=
  o.getD .vUndefined

/-- The JSON body the crm_search_companies handler posts: the whole
argument set, with absent optional arguments as undefined fields, which
JSON.stringify then omits. -/
def searchBody (a : SearchArgs) : JsValue :=
  .vObj
    [("filterGroups", .vArr (a.filterGroups.map fun g =>
        .vObj [("filters", .vArr (g.filters.map fun f =>
          .vObj [("propertyName", .vStr f.propertyName),
                 ("operator", .vStr f.operator),
                 ("value", f.value)]))])),
     ("properties", optField (a.properties.map fun ps => .vArr (ps.map JsValue.vStr))),
     ("limit", optField (a.limit.map JsValue.vNum)),
     ("after", optField (a.after.map JsValue.vStr)),
     ("sorts", optField (a.sorts.map fun ss => .vArr (ss.map fun s =>
        .vObj [("propertyName", .vStr s.propertyName),
               ("direction", .vStr s.direction)])))]

/-- Modelled from the spec: the schema-validation dispatch around the
crm_search_companies handler. The MCP framework and the zod library (both
outside this repository) check the declared argument schema before the
handler runs, and a failing check becomes the tool result as envelope text
describing the invalid argument, with no network activity. The schema
constants themselves (operator enumeration, limit bounds) are taken from
the declaration in src/index.ts; with valid arguments the handler body from
src/index.ts runs: a POST of the whole argument set to the search
endpoint, wrapped in handleEndpoint. -/
def crm_search_companies_invoke (token : String) (args : SearchArgs)
    (fetchFn : HttpRequest → FetchResult) : ToolOutcome :=
  if validSearchArgs args then
    let inner := makeApiRequestWithErrorHandling token
      "/crm/v3/objects/companies/search" [] "POST" (some (searchBody args)) fetchFn
    ⟨handleEndpoint (.ok inner.envelope), inner.requests⟩
  else
    ⟨formatResponse (.vStr "Invalid arguments: schema validation failed"), []⟩

/-- A fetch function for inputs where no request should be issued or the
response content does not matter: it throws on every request. -/
def fetchThrows : HttpRequest → FetchResult :=
  fun _ => .fthrow "network unreachable"

/-- The result shape the Envelope invariant demands: exactly one text
content element. -/
def envelopeShape (e : Envelope) : Prop :=
  ∃ s : String, e = ⟨[⟨"text", s⟩]⟩

theorem formatResponse_shape (d : JsValue) : envelopeShape (formatResponse d) :=
  ⟨_, rfl⟩

theorem wrapper_envelope_shape (apiKey endpoint : String)
    (params : List (String × JsValue)) (method : String) (body : Option JsValue)
    (fetchFn : HttpRequest → FetchResult) :
    envelopeShape (makeApiRequestWithErrorHandling apiKey endpoint params method body fetchFn).envelope := by
  unfold makeApiRequestWithErrorHandling
  cases h : (makeApiRequest apiKey endpoint params method body fetchFn).result with
  | ok d => simp only [h]; exact ⟨_, rfl⟩
  | error msg => simp only [h]; exact ⟨_, rfl⟩

/-- Claim C3: the response formatter is total and produces an envelope
whose text is the input itself for strings, the fixed no-data text for null
and undefined, the canonical JSON serialization for objects and arrays,
and the string coercion for numbers and booleans. -/
theorem formatResponse_cases :
    (∀ s, formatResponse (.vStr s) = ⟨[⟨"text", s⟩]⟩)
    ∧ formatResponse .vNull = ⟨[⟨"text", "No data returned"⟩]⟩
    ∧ formatResponse .vUndefined = ⟨[⟨"text", "No data returned"⟩]⟩
    ∧ (∀ fs, formatResponse (.vObj fs) = ⟨[⟨"text", jsonStringify (.vObj fs)⟩]⟩)
    ∧ (∀ xs, formatResponse (.vArr xs) = ⟨[⟨"text", jsonStringify (.vArr xs)⟩]⟩)
    ∧ (∀ n, formatResponse (.vNum n) = ⟨[⟨"text", jsToStr (.vNum n)⟩]⟩)
    ∧ (∀ b, formatResponse (.vBool b) = ⟨[⟨"text", jsToStr (.vBool b)⟩]⟩) :=
  ⟨fun _ => rfl, rfl, rfl, fun _ => rfl, fun _ => rfl, fun _ => rfl, fun _ => rfl⟩

/-- Claim C10: handleEndpoint is the identity on calls that do not throw,
so the envelope makeApiRequestWithErrorHandling already produced passes
through the double wrap unchanged, shown here on the crm_create_company
handler. -/
theorem handleEndpoint_pass_through :
    (∀ e : Envelope, handleEndpoint (.ok e) = e)
    ∧ (∀ token properties associations fetchFn,
        (crm_create_company_invoke token properties associations fetchFn).envelope =
          (makeApiRequestWithErrorHandling token "/crm/v3/objects/companies" [] "POST"
            (some (createCompanyBody properties associations)) fetchFn).envelope) :=
  ⟨fun _ => rfl, fun _ _ _ _ => rfl⟩

/-- Claim C4: with an empty access token makeApiRequest throws before any
fetch, so no request is recorded, and the crm_create_company tool then
returns an envelope whose text names the missing token, still with no
request issued. -/
theorem missing_token_fails_fast :
    (∀ endpoint params method body fetchFn,
        makeApiRequest "" endpoint params method body fetchFn =
          ⟨.error "HUBSPOT_ACCESS_TOKEN environment variable is not set", []⟩)
    ∧ (∀ properties associations fetchFn,
        crm_create_company_invoke "" properties associations fetchFn =
          ⟨⟨[⟨"text",
              "Error performing request: HUBSPOT_ACCESS_TOKEN environment variable is not set"⟩]⟩,
            []⟩) :=
  ⟨fun _ _ _ _ _ => rfl, fun _ _ _ => rfl⟩

/-- Claim C1: every registered tool, on every outcome of the underlying
call, returns an envelope with exactly one text content element and never
propagates an exception (the handlers are total functions into Envelope). -/
theorem tools_always_return_envelope :
    (∀ a b, envelopeShape (add_invoke a b))
    ∧ (∀ token properties associations fetchFn,
        envelopeShape (crm_create_company_invoke token properties associations fetchFn).envelope)
    ∧ (∀ token companyId properties fetchFn,
        envelopeShape (crm_update_company_invoke token companyId properties fetchFn).envelope)
    ∧ (∀ token companyId properties associations fetchFn,
        envelopeShape (crm_get_company_invoke token companyId properties associations fetchFn).envelope)
    ∧ (∀ token args fetchFn,
        envelopeShape (crm_search_companies_invoke token args fetchFn).envelope) := by
  refine ⟨fun a b => ⟨toString (a + b), rfl⟩, fun t ps as f => ?_, fun t c ps f => ?_,
    fun t c ps as f => ?_, fun t args f => ?_⟩
  · exact wrapper_envelope_shape t "/crm/v3/objects/companies" [] "POST"
      (some (createCompanyBody ps as)) f
  · exact wrapper_envelope_shape t ("/crm/v3/objects/companies/" ++ c) [] "PATCH"
      (some (.vObj [("properties", .vObj ps)])) f
  · exact wrapper_envelope_shape t ("/crm/v3/objects/companies/" ++ c)
      [("properties", optJoin ps), ("associations", optJoin as)] "GET" none f
  · unfold crm_search_companies_invoke
    by_cases hv : validSearchArgs args
    · rw [if_pos hv]
      exact wrapper_envelope_shape t "/crm/v3/objects/companies/search" [] "POST"
        (some (searchBody args)) f
    · rw [if_neg hv]
      exact ⟨_, rfl⟩

theorem makeApiRequest_requests_eq (apiKey endpoint : String)
    (params : List (String × JsValue)) (method : String) (body : Option JsValue)
    (fetchFn : HttpRequest → FetchResult) (pairs : List (String × String))
    (hkey : apiKey ≠ "") (hq : buildQueryPairs params = .ok pairs) :
    (makeApiRequest apiKey endpoint params method body fetchFn).requests =
      [⟨"https://api.hubapi.com" ++ endpoint ++
          (if queryToString pairs = "" then "" else "?" ++ queryToString pairs),
        method,
        [("Accept", "application/json"), ("Authorization", "Bearer " ++ apiKey)] ++
          (match body with
           | some _ => [("Content-Type", "application/json")]
           | none => []),
        body.map jsonStringify⟩] := by
  unfold makeApiRequest
  rw [if_neg hkey]
  simp only [hq]
  split
  · rfl
  · split
    · rfl
    · split
      · rfl
      · split <;> rfl

/-- Claim C2: the API client maps a response with status outside 200..299
to the descriptive error string carrying the numeric status, a 204
response to the fixed no-data string, and any other success response to
its parsed JSON body, without throwing in any of these cases. -/
theorem makeApiRequest_response_mapping (apiKey endpoint : String)
    (params : List (String × JsValue)) (pairs : List (String × String))
    (method : String) (body : Option JsValue) (resp : HttpResponse)
    (hkey : apiKey ≠ "") (hq : buildQueryPairs params = .ok pairs) :
    ((resp.status < 200 ∨ 299 < resp.status) →
      (makeApiRequest apiKey endpoint params method body (fun _ => .fsuccess resp)).result =
        .ok (.vStr ("Error fetching data from HubSpot: Status " ++ toString resp.status)))
    ∧ (resp.status = 204 →
      (makeApiRequest apiKey endpoint params method body (fun _ => .fsuccess resp)).result =
        .ok (.vStr "No data returned: Status 204"))
    ∧ (∀ v, 200 ≤ resp.status → resp.status ≤ 299 → resp.status ≠ 204 →
        resp.jsonBody = .ok v →
      (makeApiRequest apiKey endpoint params method body (fun _ => .fsuccess resp)).result =
        .ok v) := by
  unfold makeApiRequest
  rw [if_neg hkey]
  simp only [hq]
  refine ⟨fun h => ?_, fun h => ?_, fun v h1 h2 h3 hb => ?_⟩
  · rw [if_pos h]
  · rw [if_neg (by omega), if_pos h]
  · rw [if_neg (by omega), if_neg h3, hb]

theorem makeApiRequest_response_mapping_witness :
    (makeApiRequest "t" "/x" [] "GET" none
        (fun _ => .fsuccess ⟨404, .error "parse failure"⟩)).result =
      .ok (.vStr ("Error fetching data from HubSpot: Status " ++ toString (404 : Nat))) := by
  have h := makeApiRequest_response_mapping "t" "/x" [] [] "GET" none
    ⟨404, .error "parse failure"⟩ (by decide) rfl
  exact h.1 (Or.inr (by decide))

/-- Claim C9: every HTTP request the API client issues carries the Accept
and bearer Authorization headers, carries Content-Type exactly when a body
is passed, and its wire payload is the JSON serialization of the body when
present and absent otherwise. -/
theorem request_headers_and_body (apiKey endpoint : String)
    (params : List (String × JsValue)) (method : String) (body : Option JsValue)
    (fetchFn : HttpRequest → FetchResult) (req : HttpRequest)
    (hreq : req ∈ (makeApiRequest apiKey endpoint params method body fetchFn).requests) :
    ("Accept", "application/json") ∈ req.headers
    ∧ ("Authorization", "Bearer " ++ apiKey) ∈ req.headers
    ∧ ((("Content-Type", "application/json") ∈ req.headers) ↔ body.isSome = true)
    ∧ req.body = body.map jsonStringify := by
  by_cases hkey : apiKey = ""
  · unfold makeApiRequest at hreq
    rw [if_pos hkey] at hreq
    simp at hreq
  · cases hq : buildQueryPairs params with
    | error e =>
      unfold makeApiRequest at hreq
      rw [if_neg hkey] at hreq
      simp only [hq] at hreq
      simp at hreq
    | ok pairs =>
      rw [makeApiRequest_requests_eq apiKey endpoint params method body fetchFn pairs hkey hq,
        List.mem_singleton] at hreq
      subst hreq
      refine ⟨?_, ?_, ?_, rfl⟩
      · simp
      · simp
      · cases body with
        | none => simp
        | some b => simp

theorem request_headers_and_body_witness :
    ("Accept", "application/json") ∈
        [("Accept", "application/json"), ("Authorization", "Bearer t")]
    ∧ ("Authorization", "Bearer t") ∈
        [("Accept", "application/json"), ("Authorization", "Bearer t")]
    ∧ ((("Content-Type", "application/json") ∈
        [("Accept", "application/json"), ("Authorization", "Bearer t")]) ↔
          (none : Option JsValue).isSome = true)
    ∧ (none : Option String) = (none : Option JsValue).map jsonStringify := by
  have h := request_headers_and_body "t" "/x" [] "GET" none fetchThrows
    ⟨"https://api.hubapi.com/x", "GET",
      [("Accept", "application/json"), ("Authorization", "Bearer t")], none⟩
    (by decide)
  exact h

theorem wrapper_requests_eq (apiKey endpoint : String)
    (params : List (String × JsValue)) (method : String) (body : Option JsValue)
    (fetchFn : HttpRequest → FetchResult) :
    (makeApiRequestWithErrorHandling apiKey endpoint params method body fetchFn).requests =
      (makeApiRequest apiKey endpoint params method body fetchFn).requests := by
  unfold makeApiRequestWithErrorHandling
  cases h : (makeApiRequest apiKey endpoint params method body fetchFn).result <;> simp [h]

/-- The query pairs the crm_get_company handler ends up appending: one
comma-joined value per present array argument, in declaration order. -/
def getCompanyQueryPairs (props assocs : Option (List String)) : List (String × String) :=
  (match props with
   | none => []
   | some l => [("properties", String.intercalate "," l)]) ++
  (match assocs with
   | none => []
   | some l => [("associations", String.intercalate "," l)])

theorem getCompany_buildQueryPairs (props assocs : Option (List String)) :
    buildQueryPairs [("properties", optJoin props), ("associations", optJoin assocs)] =
      .ok (getCompanyQueryPairs props assocs) := by
  cases props <;> cases assocs <;> rfl

theorem crm_get_company_requests_eq (token companyId : String)
    (props assocs : Option (List String)) (fetchFn : HttpRequest → FetchResult)
    (h : token ≠ "") :
    (crm_get_company_invoke token companyId props assocs fetchFn).requests =
      [⟨"https://api.hubapi.com/crm/v3/objects/companies/" ++ companyId ++
          (if queryToString (getCompanyQueryPairs props assocs) = "" then ""
           else "?" ++ queryToString (getCompanyQueryPairs props assocs)),
        "GET",
        [("Accept", "application/json"), ("Authorization", "Bearer " ++ token)],
        none⟩] := by
  show (makeApiRequestWithErrorHandling token ("/crm/v3/objects/companies/" ++ companyId)
    [("properties", optJoin props), ("associations", optJoin assocs)] "GET" none fetchFn).requests = _
  rw [wrapper_requests_eq,
    makeApiRequest_requests_eq token ("/crm/v3/objects/companies/" ++ companyId)
      [("properties", optJoin props), ("associations", optJoin assocs)] "GET" none fetchFn
      (getCompanyQueryPairs props assocs) h (getCompany_buildQueryPairs props assocs)]
  rfl

/-- Claim C5 (amended): crm_get_company issues a GET to the single-company
endpoint with no body and the properties and associations arrays
comma-joined into single query values, with the comma percent-encoded; an
absent argument omits its query parameter, while an empty array yields the
parameter with an empty value rather than omitting it. -/
theorem crm_get_company_request_shape (token companyId : String)
    (props assocs : Option (List String)) (fetchFn : HttpRequest → FetchResult)
    (h : token ≠ "") :
    ((crm_get_company_invoke token companyId props assocs fetchFn).requests =
      [⟨"https://api.hubapi.com/crm/v3/objects/companies/" ++ companyId ++
          (if queryToString (getCompanyQueryPairs props assocs) = "" then ""
           else "?" ++ queryToString (getCompanyQueryPairs props assocs)),
        "GET",
        [("Accept", "application/json"), ("Authorization", "Bearer " ++ token)],
        none⟩])
    ∧ (crm_get_company_invoke token "123" (some ["name", "domain"]) none fetchFn).requests.map
        HttpRequest.url =
        ["https://api.hubapi.com/crm/v3/objects/companies/123?properties=name%2Cdomain"]
    ∧ (crm_get_company_invoke token "123" (some []) none fetchFn).requests.map
        HttpRequest.url =
        ["https://api.hubapi.com/crm/v3/objects/companies/123?properties="]
    ∧ (crm_get_company_invoke token "123" none none fetchFn).requests.map
        HttpRequest.url =
        ["https://api.hubapi.com/crm/v3/objects/companies/123"] := by
  refine ⟨crm_get_company_requests_eq token companyId props assocs fetchFn h, ?_, ?_, ?_⟩
  · rw [crm_get_company_requests_eq token "123" (some ["name", "domain"]) none fetchFn h]
    rfl
  · rw [crm_get_company_requests_eq token "123" (some []) none fetchFn h]
    rfl
  · rw [crm_get_company_requests_eq token "123" none none fetchFn h]
    rfl

theorem crm_get_company_request_shape_witness :
    (crm_get_company_invoke "t" "123" (some ["name", "domain"]) none fetchThrows).requests.map
        HttpRequest.url =
      ["https://api.hubapi.com/crm/v3/objects/companies/123?properties=name%2Cdomain"] :=
  (crm_get_company_request_shape "t" "123" (some ["name", "domain"]) none fetchThrows
    (by decide)).2.1

theorem crm_get_company_empty_array_cex :
    (crm_get_company_invoke "t" "123" (some []) none fetchThrows).requests ≠
      (crm_get_company_invoke "t" "123" none none fetchThrows).requests := by
  decide

theorem buildQueryPairs_no_null (params : List (String × JsValue))
    (h : ∀ kv ∈ params, kv.2.isNullJs = false) :
    buildQueryPairs params =
      .ok ((params.filter fun kv => !kv.2.isUndef).map fun kv => (kv.1, jsToStr kv.2)) := by
  induction params with
  | nil => rfl
  | cons kv rest ih =>
    obtain ⟨k, v⟩ := kv
    have hv : v.isNullJs = false := h (k, v) (List.mem_cons_self _ _)
    have ih2 := ih fun kv hkv => h kv (List.mem_cons_of_mem _ hkv)
    cases v with
    | vNull => simp [JsValue.isNullJs] at hv
    | vUndefined => simpa [buildQueryPairs, JsValue.isUndef, List.filter] using ih2
    | vBool b => simp [buildQueryPairs, ih2, JsValue.isUndef, List.filter]
    | vNum n => simp [buildQueryPairs, ih2, JsValue.isUndef, List.filter]
    | vStr s => simp [buildQueryPairs, ih2, JsValue.isUndef, List.filter]
    | vArr xs => simp [buildQueryPairs, ih2, JsValue.isUndef, List.filter]
    | vObj fs => simp [buildQueryPairs, ih2, JsValue.isUndef, List.filter]

theorem buildQueryPairs_hits_null (pre : List (String × JsValue)) (k : String)
    (post : List (String × JsValue))
    (h : ∀ kv ∈ pre, kv.2.isNullJs = false) :
    buildQueryPairs (pre ++ (k, JsValue.vNull) :: post) =
      .error "Cannot read properties of null (reading toString)" := by
  induction pre with
  | nil => rfl
  | cons kv rest ih =>
    obtain ⟨k1, v⟩ := kv
    have hv : v.isNullJs = false := h (k1, v) (List.mem_cons_self _ _)
    have ih2 := ih fun kv hkv => h kv (List.mem_cons_of_mem _ hkv)
    cases v with
    | vNull => simp [JsValue.isNullJs] at hv
    | vUndefined => simpa [buildQueryPairs] using ih2
    | vBool b => simp [buildQueryPairs, ih2]
    | vNum n => simp [buildQueryPairs, ih2]
    | vStr s => simp [buildQueryPairs, ih2]
    | vArr xs => simp [buildQueryPairs, ih2]
    | vObj fs => simp [buildQueryPairs, ih2]

/-- Claim C6 (amended): the query string appends each entry whose value is
neither undefined nor null, serialized via its string form, in insertion
order, and omits exactly the undefined entries; an entry whose value is
null makes the call raise before any request is issued, instead of being
appended. -/
theorem buildQuery_appends_spec :
    (∀ params : List (String × JsValue), (∀ kv ∈ params, kv.2.isNullJs = false) →
      buildQueryPairs params =
        .ok ((params.filter fun kv => !kv.2.isUndef).map fun kv => (kv.1, jsToStr kv.2)))
    ∧ (∀ (pre : List (String × JsValue)) (k : String) (post : List (String × JsValue)),
        (∀ kv ∈ pre, kv.2.isNullJs = false) →
        buildQueryPairs (pre ++ (k, JsValue.vNull) :: post) =
          .error "Cannot read properties of null (reading toString)")
    ∧ (∀ (apiKey endpoint : String) (params : List (String × JsValue)) (method : String)
          (body : Option JsValue) (fetchFn : HttpRequest → FetchResult),
        apiKey ≠ "" → (∀ kv ∈ params, kv.2.isNullJs = false) →
        (makeApiRequest apiKey endpoint params method body fetchFn).requests.map
            HttpRequest.url =
          ["https://api.hubapi.com" ++ endpoint ++
            (if queryToString ((params.filter fun kv => !kv.2.isUndef).map
                fun kv => (kv.1, jsToStr kv.2)) = "" then ""
             else "?" ++ queryToString ((params.filter fun kv => !kv.2.isUndef).map
                fun kv => (kv.1, jsToStr kv.2)))]) := by
  refine ⟨buildQueryPairs_no_null, buildQueryPairs_hits_null, ?_⟩
  intro apiKey endpoint params method body fetchFn hk h
  rw [makeApiRequest_requests_eq apiKey endpoint params method body fetchFn _ hk
    (buildQueryPairs_no_null params h)]
  rfl

theorem buildQuery_appends_spec_witness :
    buildQueryPairs [("a", JsValue.vStr "x"), ("b", JsValue.vUndefined), ("c", JsValue.vNum 3)] =
      .ok [("a", "x"), ("c", "3")] :=
  buildQuery_appends_spec.1
    [("a", JsValue.vStr "x"), ("b", JsValue.vUndefined), ("c", JsValue.vNum 3)] (by decide)

theorem buildQuery_null_raises_cex :
    makeApiRequest "t" "/x" [("k", JsValue.vNull)] "GET" none fetchThrows =
      ⟨.error "Cannot read properties of null (reading toString)", []⟩ := rfl

/-- Claim C7 (amended): when the API client throws, the wrapper catches
the exception and returns formatResponse applied to the fixed prefix
followed by the exception message, so the envelope text is the prefixed
message rather than the bare message; on a non-throwing call it returns
formatResponse of the API-client result, and it returns an envelope on
every path. -/
theorem wrapper_formats_result_or_prefixed_error (apiKey endpoint : String)
    (params : List (String × JsValue)) (method : String) (body : Option JsValue)
    (fetchFn : HttpRequest → FetchResult) :
    (∀ msg, (makeApiRequest apiKey endpoint params method body fetchFn).result = .error msg →
      (makeApiRequestWithErrorHandling apiKey endpoint params method body fetchFn).envelope =
        formatResponse (.vStr ("Error performing request: " ++ msg)))
    ∧ (∀ d, (makeApiRequest apiKey endpoint params method body fetchFn).result = .ok d →
      (makeApiRequestWithErrorHandling apiKey endpoint params method body fetchFn).envelope =
        formatResponse d) := by
  constructor
  · intro msg h
    unfold makeApiRequestWithErrorHandling
    simp only [h]
  · intro d h
    unfold makeApiRequestWithErrorHandling
    simp only [h]

theorem wrapper_formats_witness :
    (makeApiRequestWithErrorHandling "" "/x" [] "GET" none fetchThrows).envelope =
      formatResponse (.vStr ("Error performing request: " ++
        "HUBSPOT_ACCESS_TOKEN environment variable is not set")) :=
  (wrapper_formats_result_or_prefixed_error "" "/x" [] "GET" none fetchThrows).1 _ rfl

theorem wrapper_prefixes_message_cex :
    (makeApiRequestWithErrorHandling "" "/x" [] "GET" none fetchThrows).envelope =
      ⟨[⟨"text", "Error performing request: HUBSPOT_ACCESS_TOKEN environment variable is not set"⟩]⟩
    ∧ (makeApiRequestWithErrorHandling "" "/x" [] "GET" none fetchThrows).envelope ≠
      ⟨[⟨"text", "HUBSPOT_ACCESS_TOKEN environment variable is not set"⟩]⟩ :=
  ⟨rfl, by decide⟩

/-- Claim C8: with valid arguments crm_search_companies issues exactly one
POST to the search endpoint whose wire body is the JSON serialization of
the whole argument set; validity restricts every filter operator to the
fixed enumeration and the limit to 1..100; and a failing schema check
yields envelope text describing the invalid arguments with no request
issued. -/
theorem crm_search_companies_validation (token : String) (args : SearchArgs)
    (fetchFn : HttpRequest → FetchResult) (h : token ≠ "") :
    (validSearchArgs args = true →
      (crm_search_companies_invoke token args fetchFn).requests =
        [⟨"https://api.hubapi.com/crm/v3/objects/companies/search", "POST",
          [("Accept", "application/json"), ("Authorization", "Bearer " ++ token),
           ("Content-Type", "application/json")],
          some (jsonStringify (searchBody args))⟩])
    ∧ (validSearchArgs args = true →
        (∀ g ∈ args.filterGroups, ∀ flt ∈ g.filters, flt.operator ∈ validOperators)
        ∧ (∀ l, args.limit = some l → 1 ≤ l ∧ l ≤ 100))
    ∧ (validSearchArgs args = false →
        (crm_search_companies_invoke token args fetchFn).requests = []
        ∧ (crm_search_companies_invoke token args fetchFn).envelope =
            ⟨[⟨"text", "Invalid arguments: schema validation failed"⟩]⟩) := by
  refine ⟨fun hv => ?_, fun hv => ?_, fun hv => ?_⟩
  · unfold crm_search_companies_invoke
    rw [if_pos hv]
    show (makeApiRequestWithErrorHandling token "/crm/v3/objects/companies/search" [] "POST"
      (some (searchBody args)) fetchFn).requests = _
    rw [wrapper_requests_eq,
      makeApiRequest_requests_eq token "/crm/v3/objects/companies/search" [] "POST"
        (some (searchBody args)) fetchFn [] h rfl]
    rfl
  · unfold validSearchArgs at hv
    simp only [Bool.and_eq_true, List.all_eq_true] at hv
    obtain ⟨⟨hops, hlim⟩, _⟩ := hv
    constructor
    · intro g hg flt hflt
      exact List.mem_of_elem_eq_true (hops g hg flt hflt)
    · intro l hl
      rw [hl] at hlim
      simp only [Bool.and_eq_true, decide_eq_true_eq] at hlim
      exact hlim
  · unfold crm_search_companies_invoke
    rw [if_neg (by simp [hv])]
    exact ⟨rfl, rfl⟩

theorem crm_search_companies_validation_witness :
    (crm_search_companies_invoke "t"
        ⟨[⟨[⟨"name", "EQ", JsValue.vStr "Acme"⟩]⟩], none, none, none, none⟩ fetchThrows).requests =
      [⟨"https://api.hubapi.com/crm/v3/objects/companies/search", "POST",
        [("Accept", "application/json"), ("Authorization", "Bearer t"),
         ("Content-Type", "application/json")],
        some (jsonStringify (searchBody
          ⟨[⟨[⟨"name", "EQ", JsValue.vStr "Acme"⟩]⟩], none, none, none, none⟩))⟩] :=
  (crm_search_companies_validation "t"
    ⟨[⟨[⟨"name", "EQ", JsValue.vStr "Acme"⟩]⟩], none, none, none, none⟩ fetchThrows
    (by decide)).1 (by decide)

end HubSpotMcp
